import Mathlib

/-!
Shallow embedding of `grub-core/bus/usb/xhci-pci.c` (function
`grub_xhci_pci_iter` and its helpers) together with proofs about the
PCI device qualification, extended-capability location and the
firmware-to-OS ownership handoff it performs.

Hardware is modelled as an oracle environment `Env`: each kind of
read (32-bit config read, 16-bit, 8-bit, mapped-window read, clock
query) is an arbitrary sequence of values, indexed by how many reads
of that kind have already happened.  Every configuration-space access,
window mapping, clock query and collaborator call is recorded in an
event trace, so that the theorems can talk about which registers were
read and written, with which values, and in which order.
-/

namespace XhciPci

/-- `GRUB_XHCI_PCI_SBRN_REG` from the source. -/
def GRUB_XHCI_PCI_SBRN_REG : Nat := 0x60

/-- `GRUB_XHCI_ADDR_MEM_MASK` is `~0xff` applied to a 32-bit value. -/
def GRUB_XHCI_ADDR_MEM_MASK : Nat := 0xffffff00

/-- `GRUB_XHCI_BIOS_OWNED` (firmware-owned bit, `1 << 16`). -/
def GRUB_XHCI_BIOS_OWNED : Nat := 0x10000

/-- `GRUB_XHCI_OS_OWNED` (OS-owned bit, `1 << 24`). -/
def GRUB_XHCI_OS_OWNED : Nat := 0x1000000

/-- `GRUB_PCI_REG_CLASS` from `grub/pci.h` (class-code config register). -/
def GRUB_PCI_REG_CLASS : Nat := 0x08

/-- `GRUB_PCI_REG_COMMAND` from `grub/pci.h`. -/
def GRUB_PCI_REG_COMMAND : Nat := 0x04

/-- `GRUB_PCI_REG_ADDRESS_REG0` from `grub/pci.h` (first base-address register). -/
def GRUB_PCI_REG_ADDRESS_REG0 : Nat := 0x10

/-- `GRUB_PCI_REG_ADDRESS_REG1` from `grub/pci.h` (second base-address register). -/
def GRUB_PCI_REG_ADDRESS_REG1 : Nat := 0x14

/-- `GRUB_PCI_ADDR_MEM_TYPE_MASK` from `grub/pci.h` (BAR type bits). -/
def GRUB_PCI_ADDR_MEM_TYPE_MASK : Nat := 0x6

/-- `GRUB_PCI_ADDR_MEM_TYPE_32` from `grub/pci.h`. -/
def GRUB_PCI_ADDR_MEM_TYPE_32 : Nat := 0x0

/-- `GRUB_PCI_ADDR_MEM_MASK` is `~0xf` applied to a 32-bit value. -/
def GRUB_PCI_ADDR_MEM_MASK : Nat := 0xfffffff0

/-- `GRUB_PCI_COMMAND_MEM_ENABLED` from `grub/pci.h`. -/
def GRUB_PCI_COMMAND_MEM_ENABLED : Nat := 0x2

/-- `GRUB_PCI_COMMAND_BUS_MASTER` from `grub/pci.h`. -/
def GRUB_PCI_COMMAND_BUS_MASTER : Nat := 0x4

/-- `GRUB_CS5536_PCIID` from `grub/cs5536.h` (excluded legacy identity). -/
def GRUB_CS5536_PCIID : Nat := 0x208f1022

/-- One observable hardware interaction performed by the core. -/
inductive Ev where
  /-- `grub_pci_read` of a 32-bit config register at `off`, returning `val`. -/
  | confRead (off val : Nat)
  /-- `grub_pci_read_byte` at `off`, returning `val`. -/
  | confRead8 (off val : Nat)
  /-- `grub_pci_read_word` at `off`, returning `val`. -/
  | confRead16 (off val : Nat)
  /-- `grub_pci_write` of `val` to the 32-bit config register at `off`. -/
  | confWrite (off val : Nat)
  /-- `grub_pci_write_word` of `val` to `off`. -/
  | confWrite16 (off val : Nat)
  /-- `grub_pci_device_map_range` of `size` bytes at physical `base`. -/
  | mapRange (base size : Nat)
  /-- volatile read of 32-bit word `idx` of the mapped register window. -/
  | mmioRead (idx val : Nat)
  /-- `grub_get_time_ms` query returning `val`. -/
  | getTime (val : Nat)
  /-- `grub_boot_time` observability marker. -/
  | bootTime
  /-- call of the external collaborator `grub_xhci_init_device`. -/
  | initDevice
deriving DecidableEq, Repr

/-- The hardware oracle: the device identity and, for each kind of
read the core can perform, the sequence of values successive reads
observe.  The first argument of each field is the number of reads of
that kind already performed, the second (where present) the register
offset or window index being read. -/
structure Env where
  pciid : Nat
  r32 : Nat → Nat → Nat
  r16 : Nat → Nat → Nat
  r8 : Nat → Nat → Nat
  mmio : Nat → Nat → Nat
  clock : Nat → Nat

/-- Execution state: per-kind read counters and the event trace so far. -/
@[ext]
structure St where
  n32 : Nat
  n16 : Nat
  n8 : Nat
  nm : Nat
  nt : Nat
  trace : List Ev
deriving DecidableEq, Repr

/-- Initial state: nothing read, empty trace. -/
def St.init : St := ⟨0, 0, 0, 0, 0, []⟩

/-- `grub_pci_read` (32-bit config read, value truncated to 32 bits). -/
def pciRead (e : Env) (off : Nat) (s : St) : Nat × St :=
  let v := e.r32 s.n32 off % 2 ^ 32
  (v, { s with n32 := s.n32 + 1, trace := s.trace ++ [Ev.confRead off v] })

/-- `grub_pci_read_byte`. -/
def pciRead8 (e : Env) (off : Nat) (s : St) : Nat × St :=
  let v := e.r8 s.n8 off % 2 ^ 8
  (v, { s with n8 := s.n8 + 1, trace := s.trace ++ [Ev.confRead8 off v] })

/-- `grub_pci_read_word`. -/
def pciRead16 (e : Env) (off : Nat) (s : St) : Nat × St :=
  let v := e.r16 s.n16 off % 2 ^ 16
  (v, { s with n16 := s.n16 + 1, trace := s.trace ++ [Ev.confRead16 off v] })

/-- `grub_pci_write`. -/
def pciWrite (off val : Nat) (s : St) : St :=
  { s with trace := s.trace ++ [Ev.confWrite off val] }

/-- `grub_pci_write_word`. -/
def pciWrite16 (off val : Nat) (s : St) : St :=
  { s with trace := s.trace ++ [Ev.confWrite16 off val] }

/-- `grub_pci_device_map_range`. -/
def mapRangeEv (base size : Nat) (s : St) : St :=
  { s with trace := s.trace ++ [Ev.mapRange base size] }

/-- volatile read `regs[idx]` through the mapped window
(`grub_le_to_cpu32` is the identity on the abstract value). -/
def mmioRead32 (e : Env) (idx : Nat) (s : St) : Nat × St :=
  let v := e.mmio s.nm idx % 2 ^ 32
  (v, { s with nm := s.nm + 1, trace := s.trace ++ [Ev.mmioRead idx v] })

/-- `grub_get_time_ms` (a `grub_uint64_t`). -/
def getTimeMs (e : Env) (s : St) : Nat × St :=
  let v := e.clock s.nt % 2 ^ 64
  (v, { s with nt := s.nt + 1, trace := s.trace ++ [Ev.getTime v] })

/-- `grub_boot_time` marker. -/
def bootTimeMark (s : St) : St :=
  { s with trace := s.trace ++ [Ev.bootTime] }

/-- `grub_xhci_init_device` call marker. -/
def initDev (s : St) : St :=
  { s with trace := s.trace ++ [Ev.initDevice] }

/-- The busy-wait
`while ((grub_pci_read (pciaddr_eecp) & GRUB_XHCI_BIOS_OWNED) && (grub_get_time_ms () < maxtime));`
with explicit fuel (`none` means the fuel ran out before the loop
exited; the C loop has no intrinsic bound if the clock never passes
`maxtime`). -/
def pollLoop (e : Env) (off mt : Nat) : Nat → St → Option St
  | 0, _ => none
  | fuel + 1, s =>
    let rd := pciRead e off s
    if rd.1 &&& GRUB_XHCI_BIOS_OWNED ≠ 0 then
      let tm := getTimeMs e rd.2
      if tm.1 < mt then pollLoop e off mt fuel tm.2 else some tm.2
    else some rd.2

/-- Lines 178-182: write 0 to the SMI-disable register at
`eecp_offset + 4` and re-read it to force completion. -/
def smiDisable (e : Env) (eecp : Nat) (s : St) : St :=
  let s1 := pciWrite (eecp + 4) 0 s
  (pciRead e (eecp + 4) s1).2

/-- Lines 134-183: the ownership-handoff block guarded by
`eecp_offset >= 0x40`, starting at the `usblegsup` read. -/
def handoffBlock (e : Env) (eecp : Nat) (fuel : Nat) (s : St) : Option St :=
  let rd := pciRead e eecp s
  let usblegsup := rd.1
  let s1 := rd.2
  if usblegsup &&& GRUB_XHCI_BIOS_OWNED ≠ 0 then
    let s2 := bootTimeMark s1
    let s3 := pciWrite eecp (usblegsup ||| GRUB_XHCI_OS_OWNED) s2
    let s4 := (pciRead e eecp s3).2
    let tm := getTimeMs e s4
    let maxtime := (tm.1 + 1000) % 2 ^ 64
    match pollLoop e eecp maxtime fuel tm.2 with
    | none => none
    | some s6 =>
      let rchk := pciRead e eecp s6
      if rchk.1 &&& GRUB_XHCI_BIOS_OWNED ≠ 0 then
        let s8 := pciWrite eecp GRUB_XHCI_OS_OWNED rchk.2
        let s9 := (pciRead e eecp s8).2
        some (smiDisable e eecp s9)
      else some (smiDisable e eecp rchk.2)
  else if usblegsup &&& GRUB_XHCI_OS_OWNED ≠ 0 then
    some (smiDisable e eecp s1)
  else
    let s2 := pciWrite eecp GRUB_XHCI_OS_OWNED s1
    let s3 := (pciRead e eecp s2).2
    some (smiDisable e eecp s3)

/-- Lines 62-127: the qualification part of `grub_xhci_pci_iter`
(class triple, SBRN, base-address checks, command-register update,
window mapping and EECP extraction).  Returns the state together with
`none` when the device was rejected, or `some eecp_offset` when it was
accepted (window mapped, `HCCPARAMS` read). -/
def qualify (e : Env) : St × Option Nat :=
  let s0 := St.init
  let rdc := pciRead e GRUB_PCI_REG_CLASS s0
  let class_code := rdc.1 >>> 8
  let s1 := rdc.2
  let interf := class_code &&& 0xFF
  let subclass := (class_code >>> 8) &&& 0xFF
  let cls := class_code >>> 16
  if cls ≠ 0x0c ∨ subclass ≠ 0x03 ∨ interf ≠ 0x30 then (s1, none)
  else
    let rdr := pciRead8 e GRUB_XHCI_PCI_SBRN_REG s1
    let release := rdr.1
    let s2 := rdr.2
    if release ≠ 0x30 ∧ release ≠ 0x31 ∧ release ≠ 0x32 then (s2, none)
    else
      let rdb := pciRead e GRUB_PCI_REG_ADDRESS_REG0 s2
      let base := rdb.1
      let rdh := pciRead e GRUB_PCI_REG_ADDRESS_REG1 rdb.2
      let base_h := rdh.1
      let s4 := rdh.2
      if (base &&& GRUB_PCI_ADDR_MEM_TYPE_MASK ≠ GRUB_PCI_ADDR_MEM_TYPE_32)
          ∧ base_h ≠ 0 then (s4, none)
      else
        let base2 := base &&& GRUB_PCI_ADDR_MEM_MASK
        if base2 = 0 then (s4, none)
        else
          let rdw := pciRead16 e GRUB_PCI_REG_COMMAND s4
          let s6 := pciWrite16 GRUB_PCI_REG_COMMAND
            (GRUB_PCI_COMMAND_MEM_ENABLED ||| GRUB_PCI_COMMAND_BUS_MASTER ||| rdw.1) rdw.2
          let s7 := mapRangeEv (base2 &&& GRUB_XHCI_ADDR_MEM_MASK) 0x100 s6
          let rdm := mmioRead32 e 2 s7
          let eecp := (rdm.1 >>> 8) &&& 0xff
          (rdm.2, some eecp)

/-- `grub_xhci_pci_iter`: the whole PCI iteration callback.  The
second component of the result is the C return value. -/
def grub_xhci_pci_iter (e : Env) (fuel : Nat) : Option (St × Nat) :=
  if e.pciid % 2 ^ 32 = GRUB_CS5536_PCIID then some (St.init, 0)
  else
    match qualify e with
    | (s, none) => some (s, 0)
    | (s, some eecp) =>
      match (if e.pciid % 2 ^ 32 ≠ GRUB_CS5536_PCIID ∧ 0x40 ≤ eecp then
          handoffBlock e eecp fuel s
        else some s) with
      | none => none
      | some s2 => some (initDev s2, 0)

/-- The extended-capability offset the code extracts from the third
32-bit word of the register window: bits [15:8] of `HCCPARAMS`. -/
def eecpOf (e : Env) : Nat := ((e.mmio 0 2 % 2 ^ 32) >>> 8) &&& 0xff

/-- Trace of a (possibly fuel-exhausted) run, `[]` when none. -/
def traceOf (r : Option (St × Nat)) : List Ev :=
  match r with
  | some (s, _) => s.trace
  | none => []

/-- Values of all 32-bit config writes to offset `off`, in order. -/
def writesAt (off : Nat) (tr : List Ev) : List Nat :=
  tr.filterMap fun ev =>
    match ev with
    | Ev.confWrite o v => if o = off then some v else none
    | _ => none

/-- Values of all 32-bit config reads of offset `off`, in order. -/
def readsAt (off : Nat) (tr : List Ev) : List Nat :=
  tr.filterMap fun ev =>
    match ev with
    | Ev.confRead o v => if o = off then some v else none
    | _ => none

/-- Values returned by the clock queries, in order. -/
def timeVals (tr : List Ev) : List Nat :=
  tr.filterMap fun ev =>
    match ev with
    | Ev.getTime t => some t
    | _ => none

/-- Events the poll loop may emit: reads of the ownership register and
clock queries. -/
def pollEvB (off : Nat) (ev : Ev) : Bool :=
  match ev with
  | Ev.confRead o _ => o == off
  | Ev.getTime _ => true
  | _ => false

/-- `true` when the event is not a 32-bit config write. -/
def notW (ev : Ev) : Bool :=
  match ev with
  | Ev.confWrite _ _ => false
  | _ => true

/-- Did the trace map a register window? -/
def hasMapEv (tr : List Ev) : Bool :=
  tr.any fun ev =>
    match ev with
    | Ev.mapRange _ _ => true
    | _ => false

/-- Did the trace write the command register (16-bit write)? -/
def hasWrite16Ev (tr : List Ev) : Bool :=
  tr.any fun ev =>
    match ev with
    | Ev.confWrite16 _ _ => true
    | _ => false

/-- Value of the most recent 32-bit config read of `off` in the trace,
starting from the accumulator `l`. -/
def lastReadAcc (off : Nat) : Option Nat → List Ev → Option Nat
  | l, [] => l
  | l, Ev.confRead o v :: rest => lastReadAcc off (if o = off then some v else l) rest
  | l, _ :: rest => lastReadAcc off l rest

/-- Complement, within 32 bits, of the two ownership bits: a
read-modify-write that only touches the ownership bits leaves exactly
these bits of the previously read value unchanged. -/
def nonOwnerMask : Nat := 0xfefeffff

/-- Is the event right after a write a read of the same register? -/
def nextIsRead (off : Nat) : List Ev → Bool
  | Ev.confRead o _ :: _ => o == off
  | _ => false

/-- Claim C1 as stated: the written value agrees with the most
recently read value of the register outside the two ownership bits. -/
def strictWriteOK (l : Option Nat) (w : Nat) : Bool :=
  match l with
  | some v => w &&& nonOwnerMask == v &&& nonOwnerMask
  | none => false

/-- What the code actually guarantees: the written value is either the
most recently read value with the OS-owned bit OR'd in, or the bare
OS-owned bit (forced-fallback and unowned paths). -/
def amendedWriteOK (l : Option Nat) (w : Nat) : Bool :=
  match l with
  | some v => (w == (v ||| GRUB_XHCI_OS_OWNED)) || (w == GRUB_XHCI_OS_OWNED)
  | none => false

/-- Checker for C1 as stated: every 32-bit config write to `off` is a
read-modify-write of the previously read value (agreeing outside the
ownership bits) and is immediately followed by a read of `off`. -/
def rmwStrict (off : Nat) : Option Nat → List Ev → Bool
  | _, [] => true
  | l, Ev.confRead o v :: rest => rmwStrict off (if o = off then some v else l) rest
  | l, Ev.confWrite o w :: rest =>
    if o = off then
      strictWriteOK l w && nextIsRead off rest && rmwStrict off l rest
    else rmwStrict off l rest
  | l, _ :: rest => rmwStrict off l rest

/-- Checker for the amended C1: every 32-bit config write to `off`
either ORs the OS-owned bit into the previously read value or writes
the bare OS-owned bit, and is immediately followed by a read of `off`. -/
def rmwAmended (off : Nat) : Option Nat → List Ev → Bool
  | _, [] => true
  | l, Ev.confRead o v :: rest => rmwAmended off (if o = off then some v else l) rest
  | l, Ev.confWrite o w :: rest =>
    if o = off then
      amendedWriteOK l w && nextIsRead off rest && rmwAmended off l rest
    else rmwAmended off l rest
  | l, _ :: rest => rmwAmended off l rest

/-- Value the code reads from the class-code config register. -/
def classRegVal (e : Env) : Nat := e.r32 0 GRUB_PCI_REG_CLASS % 2 ^ 32

/-- `class_code` as computed by the code (class register shifted by 8). -/
def classCodeOf (e : Env) : Nat := classRegVal e >>> 8

/-- The class/subclass/interface triple matches `(0x0c, 0x03, 0x30)`
exactly as the code decomposes and tests it. -/
abbrev classMatch (e : Env) : Prop :=
  classCodeOf e >>> 16 = 0x0c ∧ (classCodeOf e >>> 8) &&& 0xFF = 0x03 ∧
    classCodeOf e &&& 0xFF = 0x30

/-- Value the code reads from the SBRN register. -/
def sbrnVal (e : Env) : Nat := e.r8 0 GRUB_XHCI_PCI_SBRN_REG % 2 ^ 8

/-- The serial-bus release number is one of the three accepted values. -/
abbrev sbrnOk (e : Env) : Prop := sbrnVal e = 0x30 ∨ sbrnVal e = 0x31 ∨ sbrnVal e = 0x32

/-- Value the code reads from the first base-address register. -/
def bar0Val (e : Env) : Nat := e.r32 1 GRUB_PCI_REG_ADDRESS_REG0 % 2 ^ 32

/-- Value the code reads from the second base-address register. -/
def bar1Val (e : Env) : Nat := e.r32 2 GRUB_PCI_REG_ADDRESS_REG1 % 2 ^ 32

/-- Value the code reads from the command register. -/
def cmdVal (e : Env) : Nat := e.r16 0 GRUB_PCI_REG_COMMAND % 2 ^ 16

/-- Value the code reads from `HCCPARAMS` (third window word). -/
def hccVal (e : Env) : Nat := e.mmio 0 2 % 2 ^ 32

/-- Poll-loop trace fragment made of `j` complete iterations that
observe the firmware-owned bit set and a clock value below the budget:
each contributes one ownership-register read and one clock query. -/
def pollPairs (e : Env) (off : Nat) : Nat → Nat → Nat → List Ev
  | _, _, 0 => []
  | n32, nt, j + 1 =>
    Ev.confRead off (e.r32 n32 off % 2 ^ 32) :: Ev.getTime (e.clock nt % 2 ^ 64) ::
      pollPairs e off (n32 + 1) (nt + 1) j

/-- The three events the OS-owned handoff case (case B) appends to the
trace: the ownership read and the SMI-disable write/read pair. -/
def caseBTail (e : Env) (eecp : Nat) (s : St) : List Ev :=
  [Ev.confRead eecp (e.r32 s.n32 eecp % 2 ^ 32),
   Ev.confWrite (eecp + 4) 0,
   Ev.confRead (eecp + 4) (e.r32 (s.n32 + 1) (eecp + 4) % 2 ^ 32)]

/-- Events recorded after the single ownership write in a clean
(within-budget) case-A handoff: the confirmation read, the clock
query, `j` full poll iterations, the poll read observing release, the
re-check read, and the SMI-disable pair. -/
def caseASuccessPost (e : Env) (eecp j : Nat) (s : St) : List Ev :=
  [Ev.confRead eecp (e.r32 (s.n32 + 1) eecp % 2 ^ 32),
   Ev.getTime (e.clock s.nt % 2 ^ 64)]
  ++ pollPairs e eecp (s.n32 + 2) (s.nt + 1) j
  ++ [Ev.confRead eecp (e.r32 (s.n32 + 2 + j) eecp % 2 ^ 32),
      Ev.confRead eecp (e.r32 (s.n32 + 3 + j) eecp % 2 ^ 32),
      Ev.confWrite (eecp + 4) 0,
      Ev.confRead (eecp + 4) (e.r32 (s.n32 + 4 + j) (eecp + 4) % 2 ^ 32)]

/-- Events case A appends to the trace when the firmware releases
ownership after `j` full poll iterations: the initial read, the boot
marker, the single ownership write, then everything after it. -/
def caseASuccessTail (e : Env) (eecp j : Nat) (s : St) : List Ev :=
  [Ev.confRead eecp (e.r32 s.n32 eecp % 2 ^ 32),
   Ev.bootTime,
   Ev.confWrite eecp (e.r32 s.n32 eecp % 2 ^ 32 ||| GRUB_XHCI_OS_OWNED)]
  ++ caseASuccessPost e eecp j s

/-- Concrete device for the C1 analysis: matching class triple,
release 0x30, 32-bit base `0x80000000`, `HCCPARAMS` giving capability
offset 0x40, and an ownership register reading 1 (neither owner bit
set, a reserved low bit set). -/
def envC1 : Env :=
  { pciid := 0
    r32 := fun n _ =>
      match n with
      | 0 => 0x0c033000
      | 1 => 0x80000000
      | 2 => 0
      | _ => 1
    r16 := fun _ _ => 0
    r8 := fun _ _ => 0x30
    mmio := fun _ _ => 0x4000
    clock := fun _ => 0 }

/-- Concrete hardware for the C2 witness: the ownership register
always reads `0x10000` (firmware-owned, never released), the clock
reads 0 then 5000. -/
def envC2 : Env :=
  { pciid := 0
    r32 := fun _ _ => 0x10000
    r16 := fun _ _ => 0
    r8 := fun _ _ => 0x30
    mmio := fun _ _ => 0x4000
    clock := fun n => if n = 0 then 0 else 5000 }

/-- Concrete device for the C3 witness: accepted, capability offset
0x40, ownership register already OS-owned. -/
def envC3 : Env :=
  { pciid := 0
    r32 := fun n _ =>
      match n with
      | 0 => 0x0c033000
      | 1 => 0x80000000
      | 2 => 0
      | _ => 0x1000000
    r16 := fun _ _ => 0
    r8 := fun _ _ => 0x30
    mmio := fun _ _ => 0x4000
    clock := fun _ => 0 }

/-- Concrete device for the C4 witness: the excluded CS5536 identity. -/
def envC4 : Env :=
  { pciid := GRUB_CS5536_PCIID
    r32 := fun _ _ => 0
    r16 := fun _ _ => 0
    r8 := fun _ _ => 0
    mmio := fun _ _ => 0
    clock := fun _ => 0 }

/-- Concrete hardware for the C5 witness: firmware-owned for the
initial, confirmation and first poll read, released afterwards; the
clock never advances. -/
def envC5 : Env :=
  { pciid := 0
    r32 := fun n _ => if n ≤ 2 then 0x10000 else 0
    r16 := fun _ _ => 0
    r8 := fun _ _ => 0x30
    mmio := fun _ _ => 0x4000
    clock := fun _ => 0 }

/-- Concrete hardware for the C6 witness: ownership register reads
OS-owned (bit 24) with the firmware bit clear. -/
def envC6 : Env :=
  { pciid := 0
    r32 := fun _ _ => 0x1000000
    r16 := fun _ _ => 0
    r8 := fun _ _ => 0x30
    mmio := fun _ _ => 0x4000
    clock := fun _ => 0 }

/-- Concrete device for the C7 witness: class register reads 0, so the
class triple does not match. -/
def envC7 : Env :=
  { pciid := 0
    r32 := fun _ _ => 0
    r16 := fun _ _ => 0
    r8 := fun _ _ => 0
    mmio := fun _ _ => 0
    clock := fun _ => 0 }

/-- Concrete device for the C8 witness: matching class and release,
64-bit base-address type (`bar0 & 6 = 4`) with a non-zero high word. -/
def envC8 : Env :=
  { pciid := 0
    r32 := fun n _ =>
      match n with
      | 0 => 0x0c033000
      | 1 => 0x80000004
      | _ => 1
    r16 := fun _ _ => 0
    r8 := fun _ _ => 0x30
    mmio := fun _ _ => 0
    clock := fun _ => 0 }

/-- Concrete device for the C9 witness: base-address register reads
`0x90` — non-zero after the `~0xf` mask, zero after the `~0xff` mask. -/
def envC9 : Env :=
  { pciid := 0
    r32 := fun n _ =>
      match n with
      | 0 => 0x0c033000
      | 1 => 0x90
      | _ => 0
    r16 := fun _ _ => 0
    r8 := fun _ _ => 0x30
    mmio := fun _ _ => 0x4000
    clock := fun _ => 0 }

/-- Concrete device for the C10 witness: 32-bit base-address type with
a wild non-zero high word that the code never looks at. -/
def envC10 : Env :=
  { pciid := 0
    r32 := fun n _ =>
      match n with
      | 0 => 0x0c033000
      | 1 => 0x80000000
      | 2 => 0xdeadbeef
      | _ => 0
    r16 := fun _ _ => 0
    r8 := fun _ _ => 0x30
    mmio := fun _ _ => 0x4000
    clock := fun _ => 0 }

/-- State `handoffBlock envC2 0x40 2 St.init` ends in: timeout after
one poll iteration, forced write, confirmation read, SMI disable. -/
def stC2 : St :=
  ⟨6, 0, 0, 0, 2,
   [Ev.confRead 0x40 0x10000,
    Ev.bootTime,
    Ev.confWrite 0x40 0x1010000,
    Ev.confRead 0x40 0x10000,
    Ev.getTime 0,
    Ev.confRead 0x40 0x10000,
    Ev.getTime 5000,
    Ev.confRead 0x40 0x10000,
    Ev.confWrite 0x40 0x1000000,
    Ev.confRead 0x40 0x10000,
    Ev.confWrite (0x40 + 4) 0,
    Ev.confRead (0x40 + 4) 0x10000]⟩

/-- State `qualify envC3` accepts envC3's device with. -/
def stC3q : St :=
  ⟨3, 1, 1, 1, 0,
   [Ev.confRead 0x08 0x0c033000,
    Ev.confRead8 0x60 0x30,
    Ev.confRead 0x10 0x80000000,
    Ev.confRead 0x14 0,
    Ev.confRead16 0x04 0,
    Ev.confWrite16 0x04 6,
    Ev.mapRange 0x80000000 0x100,
    Ev.mmioRead 2 0x4000]⟩

/-- Final state of `grub_xhci_pci_iter envC3 1`: case-B handoff,
SMI disable, controller initialization. -/
def stC3out : St :=
  ⟨5, 1, 1, 1, 0,
   stC3q.trace ++
     [Ev.confRead 0x40 0x1000000,
      Ev.confWrite (0x40 + 4) 0,
      Ev.confRead (0x40 + 4) 0x1000000,
      Ev.initDevice]⟩

/-! ## Helper lemmas -/

set_option maxRecDepth 4096 in
/-- A value below 256 has no bits in common with `~0xff`. -/
theorem and_lt_256_hi (y : Nat) (h : y < 256) : y &&& 0xffffff00 = 0 := by
  revert h; revert y; decide

/-- Exact result of `qualify` on an accepted device. -/
theorem qualify_accept (e : Env)
    (hcl : classMatch e) (hsb : sbrnOk e)
    (h4 : bar0Val e &&& GRUB_PCI_ADDR_MEM_TYPE_MASK = GRUB_PCI_ADDR_MEM_TYPE_32
        ∨ bar1Val e = 0)
    (hnz : bar0Val e &&& GRUB_PCI_ADDR_MEM_MASK ≠ 0) :
    qualify e = (⟨3, 1, 1, 1, 0,
      [Ev.confRead GRUB_PCI_REG_CLASS (classRegVal e),
       Ev.confRead8 GRUB_XHCI_PCI_SBRN_REG (sbrnVal e),
       Ev.confRead GRUB_PCI_REG_ADDRESS_REG0 (bar0Val e),
       Ev.confRead GRUB_PCI_REG_ADDRESS_REG1 (bar1Val e),
       Ev.confRead16 GRUB_PCI_REG_COMMAND (cmdVal e),
       Ev.confWrite16 GRUB_PCI_REG_COMMAND
         (GRUB_PCI_COMMAND_MEM_ENABLED ||| GRUB_PCI_COMMAND_BUS_MASTER ||| cmdVal e),
       Ev.mapRange ((bar0Val e &&& GRUB_PCI_ADDR_MEM_MASK) &&& GRUB_XHCI_ADDR_MEM_MASK) 0x100,
       Ev.mmioRead 2 (hccVal e)]⟩, some (eecpOf e)) := by
  obtain ⟨h1, h2, h3⟩ := hcl
  norm_num [classCodeOf, classRegVal] at h1 h2 h3
  norm_num [bar0Val, GRUB_PCI_ADDR_MEM_MASK] at hnz
  rcases hsb with h | h | h <;> norm_num [sbrnVal] at h <;>
    rcases h4 with h4 | h4 <;>
    norm_num [bar0Val, bar1Val, GRUB_PCI_ADDR_MEM_TYPE_MASK, GRUB_PCI_ADDR_MEM_TYPE_32] at h4 <;>
    simp [qualify, pciRead, pciRead8, pciRead16, pciWrite16, mapRangeEv, mmioRead32,
      St.init, classRegVal, sbrnVal, bar0Val, bar1Val, cmdVal, hccVal, eecpOf,
      GRUB_PCI_ADDR_MEM_TYPE_MASK, GRUB_PCI_ADDR_MEM_TYPE_32, GRUB_PCI_ADDR_MEM_MASK,
      h1, h2, h3, h, h4, hnz]

/-! ## Claim C4 (error handling) and claim C6 (idempotence) -/

/-- C4: every terminating invocation of the qualification entry point
returns the continue-enumeration status 0, whatever the device, its
identity and the register/clock observations were. -/
theorem c4_always_continue (e : Env) (fuel : Nat) (out : St × Nat)
    (h : grub_xhci_pci_iter e fuel = some out) : out.2 = 0 := by
  obtain ⟨s, n⟩ := out
  unfold grub_xhci_pci_iter at h
  split at h
  · simp_all
  · split at h
    · simp_all
    · split at h
      · simp_all
      · simp_all

/-- C4 witness: the excluded CS5536 identity returns 0. -/
theorem c4_always_continue_witness :
    grub_xhci_pci_iter envC4 1 = some (St.init, 0) ∧ ((St.init, 0) : St × Nat).2 = 0 :=
  ⟨by decide, c4_always_continue envC4 1 (St.init, 0) (by decide)⟩

/-- C6: when the ownership register reads with the firmware-owned bit
clear and the OS-owned bit set (case B), the handoff performs no write
to the ownership register, yet still writes 0 to the SMI-disable
register 4 bytes above it (exactly once). -/
theorem c6_idempotent_os_owned (e : Env) (eecp fuel : Nat) (s : St)
    (hb : e.r32 s.n32 eecp % 2 ^ 32 &&& GRUB_XHCI_BIOS_OWNED = 0)
    (ho : e.r32 s.n32 eecp % 2 ^ 32 &&& GRUB_XHCI_OS_OWNED ≠ 0) :
    handoffBlock e eecp fuel s =
      some ⟨s.n32 + 2, s.n16, s.n8, s.nm, s.nt, s.trace ++ caseBTail e eecp s⟩ ∧
    writesAt eecp (s.trace ++ caseBTail e eecp s) = writesAt eecp s.trace ∧
    writesAt (eecp + 4) (s.trace ++ caseBTail e eecp s) =
      writesAt (eecp + 4) s.trace ++ [0] := by
  have hne : eecp + 4 ≠ eecp := by omega
  norm_num [GRUB_XHCI_BIOS_OWNED] at hb
  norm_num [GRUB_XHCI_OS_OWNED] at ho
  refine ⟨?_, ?_, ?_⟩
  · simp [handoffBlock, pciRead, pciWrite, smiDisable, caseBTail, GRUB_XHCI_BIOS_OWNED,
      GRUB_XHCI_OS_OWNED, hb, ho]
  · simp [writesAt, caseBTail, List.filterMap_append, hne]
  · simp [writesAt, caseBTail, List.filterMap_append]

/-- C6 witness: ownership register reading exactly the OS-owned bit. -/
theorem c6_idempotent_os_owned_witness :
    handoffBlock envC6 0x40 0 St.init =
      some ⟨St.init.n32 + 2, St.init.n16, St.init.n8, St.init.nm, St.init.nt,
        St.init.trace ++ caseBTail envC6 0x40 St.init⟩ ∧
    writesAt 0x40 (St.init.trace ++ caseBTail envC6 0x40 St.init) =
      writesAt 0x40 St.init.trace ∧
    writesAt (0x40 + 4) (St.init.trace ++ caseBTail envC6 0x40 St.init) =
      writesAt (0x40 + 4) St.init.trace ++ [0] :=
  c6_idempotent_os_owned envC6 0x40 0 St.init (by decide) (by decide)

/-! ## Claims C7 to C10 (Device Qualifier) -/

/-- C7: for every device (not the excluded legacy identity) whose
class/subclass/programming-interface triple differs from
`(0x0c, 0x03, 0x30)`, the qualification entry point returns the
continue status and its trace consists of the class-code read alone:
no revision read, no base-address read, no command-register write and
no mapping. -/
theorem c7_class_mismatch_frame (e : Env) (fuel : Nat)
    (hpci : e.pciid % 2 ^ 32 ≠ GRUB_CS5536_PCIID)
    (hcl : ¬ classMatch e) :
    grub_xhci_pci_iter e fuel =
      some (⟨1, 0, 0, 0, 0, [Ev.confRead GRUB_PCI_REG_CLASS (classRegVal e)]⟩, 0) := by
  have hor : ¬(classCodeOf e >>> 16 = 0x0c) ∨ ¬((classCodeOf e >>> 8) &&& 0xFF = 0x03)
      ∨ ¬(classCodeOf e &&& 0xFF = 0x30) := by tauto
  have hq : qualify e =
      (⟨1, 0, 0, 0, 0, [Ev.confRead GRUB_PCI_REG_CLASS (classRegVal e)]⟩, none) := by
    rcases hor with h | h | h <;> norm_num [classCodeOf, classRegVal] at h <;>
      simp [qualify, pciRead, St.init, classRegVal, h]
  unfold grub_xhci_pci_iter
  rw [if_neg hpci, hq]

/-- C7 witness: a concrete device whose class register reads zero. -/
theorem c7_class_mismatch_frame_witness :
    grub_xhci_pci_iter envC7 1 =
      some (⟨1, 0, 0, 0, 0, [Ev.confRead GRUB_PCI_REG_CLASS (classRegVal envC7)]⟩, 0) :=
  c7_class_mismatch_frame envC7 1 (by decide) (by decide)

/-- C8: a device that passes the class and revision checks but whose
base-address type bits say 64-bit (`bar0 & 6 = 4`) while the high
base-address word is non-zero is rejected right after the two
base-address reads: no register window is mapped and the command
register is never written. -/
theorem c8_reject_above_4g (e : Env)
    (hcl : classMatch e) (hsb : sbrnOk e)
    (h64 : bar0Val e &&& GRUB_PCI_ADDR_MEM_TYPE_MASK = 0x4)
    (hbh : bar1Val e ≠ 0) :
    qualify e = (⟨3, 0, 1, 0, 0,
      [Ev.confRead GRUB_PCI_REG_CLASS (classRegVal e),
       Ev.confRead8 GRUB_XHCI_PCI_SBRN_REG (sbrnVal e),
       Ev.confRead GRUB_PCI_REG_ADDRESS_REG0 (bar0Val e),
       Ev.confRead GRUB_PCI_REG_ADDRESS_REG1 (bar1Val e)]⟩, none) ∧
    hasMapEv (qualify e).1.trace = false ∧ hasWrite16Ev (qualify e).1.trace = false := by
  obtain ⟨h1, h2, h3⟩ := hcl
  norm_num [classCodeOf, classRegVal] at h1 h2 h3
  norm_num [bar1Val] at hbh
  have hq : qualify e = (⟨3, 0, 1, 0, 0,
      [Ev.confRead GRUB_PCI_REG_CLASS (classRegVal e),
       Ev.confRead8 GRUB_XHCI_PCI_SBRN_REG (sbrnVal e),
       Ev.confRead GRUB_PCI_REG_ADDRESS_REG0 (bar0Val e),
       Ev.confRead GRUB_PCI_REG_ADDRESS_REG1 (bar1Val e)]⟩, none) := by
    rcases hsb with h | h | h <;> norm_num [sbrnVal] at h <;>
      norm_num [bar0Val, GRUB_PCI_ADDR_MEM_TYPE_MASK] at h64 <;>
      simp [qualify, pciRead, pciRead8, St.init, classRegVal, sbrnVal, bar0Val, bar1Val,
        GRUB_PCI_ADDR_MEM_TYPE_MASK, GRUB_PCI_ADDR_MEM_TYPE_32, h1, h2, h3, h, h64, hbh]
  refine ⟨hq, ?_, ?_⟩ <;> rw [hq] <;> rfl

/-- C8 witness: concrete 64-bit-typed base with non-zero high word. -/
theorem c8_reject_above_4g_witness :
    qualify envC8 = (⟨3, 0, 1, 0, 0,
      [Ev.confRead GRUB_PCI_REG_CLASS (classRegVal envC8),
       Ev.confRead8 GRUB_XHCI_PCI_SBRN_REG (sbrnVal envC8),
       Ev.confRead GRUB_PCI_REG_ADDRESS_REG0 (bar0Val envC8),
       Ev.confRead GRUB_PCI_REG_ADDRESS_REG1 (bar1Val envC8)]⟩, none) ∧
    hasMapEv (qualify envC8).1.trace = false ∧ hasWrite16Ev (qualify envC8).1.trace = false :=
  c8_reject_above_4g envC8 (by decide) (by decide) (by decide) (by decide)

/-- C9: the zero-base rejection tests `base & ~0xf`, but the window is
mapped at `base & ~0xff`; so whenever `base & ~0xf` is non-zero but
below 0x100, the device is accepted and a 256-byte window is mapped at
physical address 0. -/
theorem c9_low_base_maps_zero (e : Env)
    (hcl : classMatch e) (hsb : sbrnOk e)
    (htype : bar0Val e &&& GRUB_PCI_ADDR_MEM_TYPE_MASK = GRUB_PCI_ADDR_MEM_TYPE_32)
    (hnz : bar0Val e &&& GRUB_PCI_ADDR_MEM_MASK ≠ 0)
    (hlow : bar0Val e &&& GRUB_PCI_ADDR_MEM_MASK < 0x100) :
    (qualify e).2.isSome = true ∧ Ev.mapRange 0 0x100 ∈ (qualify e).1.trace := by
  have ha := qualify_accept e hcl hsb (Or.inl htype) hnz
  have hz : (bar0Val e &&& GRUB_PCI_ADDR_MEM_MASK) &&& GRUB_XHCI_ADDR_MEM_MASK = 0 := by
    have := and_lt_256_hi (bar0Val e &&& GRUB_PCI_ADDR_MEM_MASK) hlow
    simpa [GRUB_XHCI_ADDR_MEM_MASK] using this
  rw [ha]
  constructor
  · rfl
  · rw [← hz]
    simp

/-- C9 witness: base-address register reading `0x90`. -/
theorem c9_low_base_maps_zero_witness :
    (qualify envC9).2.isSome = true ∧ Ev.mapRange 0 0x100 ∈ (qualify envC9).1.trace :=
  c9_low_base_maps_zero envC9 (by decide) (by decide) (by decide) (by decide) (by decide)

/-- C10: when the base-address type bits say 32-bit, the high word
read from the second base-address register is ignored: with no
hypothesis at all on that value, the device is accepted (never
rejected by the above-4G check) and the mapped base is computed from
the low word alone. -/
theorem c10_high_word_ignored (e : Env)
    (hcl : classMatch e) (hsb : sbrnOk e)
    (htype : bar0Val e &&& GRUB_PCI_ADDR_MEM_TYPE_MASK = GRUB_PCI_ADDR_MEM_TYPE_32)
    (hnz : bar0Val e &&& GRUB_PCI_ADDR_MEM_MASK ≠ 0) :
    (qualify e).2.isSome = true ∧
    Ev.mapRange ((bar0Val e &&& GRUB_PCI_ADDR_MEM_MASK) &&& GRUB_XHCI_ADDR_MEM_MASK) 0x100
      ∈ (qualify e).1.trace := by
  have ha := qualify_accept e hcl hsb (Or.inl htype) hnz
  rw [ha]
  exact ⟨rfl, by simp⟩

/-- C10 witness: 32-bit base with high word `0xdeadbeef`, ignored. -/
theorem c10_high_word_ignored_witness :
    (qualify envC10).2.isSome = true ∧
    Ev.mapRange ((bar0Val envC10 &&& GRUB_PCI_ADDR_MEM_MASK) &&& GRUB_XHCI_ADDR_MEM_MASK) 0x100
      ∈ (qualify envC10).1.trace :=
  c10_high_word_ignored envC10 (by decide) (by decide) (by decide) (by decide)

/-! ## Poll-loop and trace lemmas -/

/-- If the firmware-owned bit reads set for `j` poll iterations (with
the clock still under budget) and clear at iteration `j + 1`, the poll
loop performs exactly `j` read/clock pairs plus one final read. -/
theorem pollLoop_clear (e : Env) (off mt : Nat) :
    ∀ (j fuel : Nat) (q : St), j < fuel →
    (∀ i, i < j → e.r32 (q.n32 + i) off % 2 ^ 32 &&& GRUB_XHCI_BIOS_OWNED ≠ 0) →
    (∀ i, i < j → e.clock (q.nt + i) % 2 ^ 64 < mt) →
    e.r32 (q.n32 + j) off % 2 ^ 32 &&& GRUB_XHCI_BIOS_OWNED = 0 →
    pollLoop e off mt fuel q =
      some ⟨q.n32 + j + 1, q.n16, q.n8, q.nm, q.nt + j,
        q.trace ++ pollPairs e off q.n32 q.nt j ++
          [Ev.confRead off (e.r32 (q.n32 + j) off % 2 ^ 32)]⟩ := by
  intro j
  induction j with
  | zero =>
    intro fuel q hf hp hc hr
    match fuel, hf with
    | fuel + 1, _ =>
      rw [Nat.add_zero] at hr
      simp only [pollLoop, pciRead]
      rw [if_neg (fun hne => hne hr)]
      simp only [pollPairs, Nat.add_zero, List.append_nil]
  | succ j ih =>
    intro fuel q hf hp hc hr
    match fuel, hf with
    | fuel + 1, hf =>
      have h0 : e.r32 q.n32 off % 2 ^ 32 &&& GRUB_XHCI_BIOS_OWNED ≠ 0 := by
        have h := hp 0 (by omega); rw [Nat.add_zero] at h; exact h
      have t0 : e.clock q.nt % 2 ^ 64 < mt := by
        have h := hc 0 (by omega); rw [Nat.add_zero] at h; exact h
      have step : pollLoop e off mt fuel
          ⟨q.n32 + 1, q.n16, q.n8, q.nm, q.nt + 1,
            q.trace ++ [Ev.confRead off (e.r32 q.n32 off % 2 ^ 32),
              Ev.getTime (e.clock q.nt % 2 ^ 64)]⟩ =
          some ⟨q.n32 + 1 + j + 1, q.n16, q.n8, q.nm, q.nt + 1 + j,
            (q.trace ++ [Ev.confRead off (e.r32 q.n32 off % 2 ^ 32),
              Ev.getTime (e.clock q.nt % 2 ^ 64)]) ++
              pollPairs e off (q.n32 + 1) (q.nt + 1) j ++
              [Ev.confRead off (e.r32 (q.n32 + 1 + j) off % 2 ^ 32)]⟩ :=
        ih fuel
          ⟨q.n32 + 1, q.n16, q.n8, q.nm, q.nt + 1,
            q.trace ++ [Ev.confRead off (e.r32 q.n32 off % 2 ^ 32),
              Ev.getTime (e.clock q.nt % 2 ^ 64)]⟩
          (by omega)
          (by intro i hi
              have h := hp (i + 1) (by omega)
              rw [show q.n32 + 1 + i = q.n32 + (i + 1) from by omega]
              exact h)
          (by intro i hi
              have h := hc (i + 1) (by omega)
              rw [show q.nt + 1 + i = q.nt + (i + 1) from by omega]
              exact h)
          (by rw [show q.n32 + 1 + j = q.n32 + (j + 1) from by omega]
              exact hr)
      simp only [pollLoop, pciRead, getTimeMs]
      rw [if_pos h0, if_pos t0]
      simp only [List.append_assoc, List.singleton_append]
      rw [step]
      rw [show q.n32 + 1 + j = q.n32 + (j + 1) from by omega,
          show q.nt + 1 + j = q.nt + (j + 1) from by omega]
      simp [pollPairs, List.append_assoc]

/-- `writesAt` distributes over appending. -/
theorem writesAt_append (off : Nat) (l1 l2 : List Ev) :
    writesAt off (l1 ++ l2) = writesAt off l1 ++ writesAt off l2 :=
  List.filterMap_append l1 l2 _

/-- `readsAt` distributes over appending. -/
theorem readsAt_append (off : Nat) (l1 l2 : List Ev) :
    readsAt off (l1 ++ l2) = readsAt off l1 ++ readsAt off l2 :=
  List.filterMap_append l1 l2 _

/-- `timeVals` distributes over appending. -/
theorem timeVals_append (l1 l2 : List Ev) :
    timeVals (l1 ++ l2) = timeVals l1 ++ timeVals l2 :=
  List.filterMap_append l1 l2 _

/-- Poll iterations contain no config writes. -/
theorem writesAt_pollPairs (e : Env) (o off : Nat) :
    ∀ (j n t : Nat), writesAt o (pollPairs e off n t j) = [] := by
  intro j
  induction j with
  | zero => intro n t; simp [pollPairs, writesAt]
  | succ j ih => intro n t; simp [pollPairs, writesAt] at ih ⊢; exact ih n.succ t.succ

/-- `j` poll iterations read the polled register exactly `j` times. -/
theorem readsAt_pollPairs (e : Env) (off : Nat) :
    ∀ (j n t : Nat), (readsAt off (pollPairs e off n t j)).length = j := by
  intro j
  induction j with
  | zero => intro n t; simp [pollPairs, readsAt]
  | succ j ih => intro n t; simp [pollPairs, readsAt] at ih ⊢; exact ih (n + 1) (t + 1)

/-- A value with the firmware-owned bit set stays different from the
bare OS-owned bit after OR-ing the OS-owned bit in. -/
theorem or_os_ne_os (u : Nat) (hu : u &&& GRUB_XHCI_BIOS_OWNED ≠ 0) :
    u ||| GRUB_XHCI_OS_OWNED ≠ GRUB_XHCI_OS_OWNED := by
  intro heq
  apply hu
  have hb : u.testBit 16 = false := by
    have h1 : (u ||| GRUB_XHCI_OS_OWNED).testBit 16 = (GRUB_XHCI_OS_OWNED : Nat).testBit 16 := by
      rw [heq]
    have h2 : (GRUB_XHCI_OS_OWNED : Nat).testBit 16 = false := by decide
    rw [Nat.testBit_or, h2] at h1
    simpa using h1
  have hm : GRUB_XHCI_BIOS_OWNED = 2 ^ 16 := by norm_num [GRUB_XHCI_BIOS_OWNED]
  rw [hm, Nat.and_two_pow, hb]
  simp

/-- A leading config read contributes no clock value. -/
theorem timeVals_cons_read (off v : Nat) (l : List Ev) :
    timeVals (Ev.confRead off v :: l) = timeVals l := by simp [timeVals]

/-- A leading clock query contributes its value. -/
theorem timeVals_cons_time (t : Nat) (l : List Ev) :
    timeVals (Ev.getTime t :: l) = t :: timeVals l := by simp [timeVals]

/-- When every read of the polled register shows the firmware-owned
bit set, any terminating run of the poll loop appends only reads and
clock queries, makes at least one clock query, exits on a clock value
at or past the budget, and saw every earlier clock value under it. -/
theorem pollLoop_stuck (e : Env) (off mt : Nat)
    (hnc : ∀ n, e.r32 n off % 2 ^ 32 &&& GRUB_XHCI_BIOS_OWNED ≠ 0) :
    ∀ (fuel : Nat) (q s6 : St), pollLoop e off mt fuel q = some s6 →
    ∃ ptl tlast,
      s6.trace = q.trace ++ ptl ∧
      ptl.all (pollEvB off) = true ∧
      timeVals ptl ≠ [] ∧
      (timeVals ptl).getLast? = some tlast ∧
      mt ≤ tlast ∧
      (∀ x ∈ (timeVals ptl).dropLast, x < mt) := by
  intro fuel
  induction fuel with
  | zero => intro q s6 h; exact absurd h (by simp [pollLoop])
  | succ fuel ih =>
    intro q s6 h
    simp only [pollLoop, pciRead, getTimeMs] at h
    rw [if_pos (hnc q.n32)] at h
    rcases Nat.lt_or_ge (e.clock q.nt % 2 ^ 64) mt with hlt | hge
    · rw [if_pos hlt] at h
      obtain ⟨ptl, tlast, h1, h2, h3, h4, h5, h6⟩ := ih _ _ h
      obtain ⟨a, l, hal⟩ : ∃ a l, timeVals ptl = a :: l := by
        cases htl : timeVals ptl with
        | nil => exact absurd htl h3
        | cons a l => exact ⟨a, l, rfl⟩
      have htv : timeVals (Ev.confRead off (e.r32 q.n32 off % 2 ^ 32) ::
          Ev.getTime (e.clock q.nt % 2 ^ 64) :: ptl) =
          (e.clock q.nt % 2 ^ 64) :: a :: l := by
        rw [timeVals_cons_read, timeVals_cons_time, hal]
      refine ⟨Ev.confRead off (e.r32 q.n32 off % 2 ^ 32) ::
        Ev.getTime (e.clock q.nt % 2 ^ 64) :: ptl, tlast, ?_, ?_, ?_, ?_, h5, ?_⟩
      · rw [h1]; simp
      · simp [h2, pollEvB]
      · rw [htv]; simp
      · rw [htv, List.getLast?_cons_cons]
        rw [hal] at h4
        exact h4
      · intro x hx
        rw [htv, List.dropLast_cons₂, List.mem_cons] at hx
        rw [hal] at h6
        rcases hx with rfl | hx
        · exact hlt
        · exact h6 x hx
    · rw [if_neg (Nat.not_lt.mpr hge)] at h
      injection h with h
      subst h
      refine ⟨[Ev.confRead off (e.r32 q.n32 off % 2 ^ 32),
        Ev.getTime (e.clock q.nt % 2 ^ 64)], e.clock q.nt % 2 ^ 64, ?_, ?_, ?_, ?_, hge, ?_⟩
      · simp
      · simp [pollEvB]
      · simp [timeVals]
      · simp [timeVals]
      · simp [timeVals]

/-- Any terminating poll loop run appends only reads of the polled
register and clock queries. -/
theorem pollLoop_evs (e : Env) (off mt : Nat) :
    ∀ (fuel : Nat) (q s7 : St), pollLoop e off mt fuel q = some s7 →
    ∃ ptl, s7.trace = q.trace ++ ptl ∧ ptl.all (pollEvB off) = true := by
  intro fuel
  induction fuel with
  | zero => intro q s7 h; exact absurd h (by simp [pollLoop])
  | succ fuel ih =>
    intro q s7 h
    simp only [pollLoop, pciRead, getTimeMs] at h
    by_cases hb : e.r32 q.n32 off % 2 ^ 32 &&& GRUB_XHCI_BIOS_OWNED ≠ 0
    · rw [if_pos hb] at h
      by_cases ht : e.clock q.nt % 2 ^ 64 < mt
      · rw [if_pos ht] at h
        obtain ⟨ptl, h1, h2⟩ := ih _ _ h
        refine ⟨Ev.confRead off (e.r32 q.n32 off % 2 ^ 32) ::
          Ev.getTime (e.clock q.nt % 2 ^ 64) :: ptl, ?_, ?_⟩
        · rw [h1]; simp
        · simp [h2, pollEvB]
      · rw [if_neg ht] at h
        injection h with h
        subst h
        exact ⟨[Ev.confRead off (e.r32 q.n32 off % 2 ^ 32),
          Ev.getTime (e.clock q.nt % 2 ^ 64)], by simp, by simp [pollEvB]⟩
    · rw [if_neg hb] at h
      injection h with h
      subst h
      exact ⟨[Ev.confRead off (e.r32 q.n32 off % 2 ^ 32)], by simp, by simp [pollEvB]⟩

/-- Poll events include no config write at any offset. -/
theorem writesAt_of_pollEvs (o off : Nat) (ptl : List Ev)
    (h : ptl.all (pollEvB off) = true) : writesAt o ptl = [] := by
  induction ptl with
  | nil => rfl
  | cons ev ptl ih =>
    simp only [List.all_cons, Bool.and_eq_true] at h
    cases ev <;> simp_all [pollEvB, writesAt]

/-- Poll events are never config writes. -/
theorem notW_of_pollEvs (off : Nat) (ptl : List Ev)
    (h : ptl.all (pollEvB off) = true) : ptl.all notW = true := by
  induction ptl with
  | nil => rfl
  | cons ev ptl ih =>
    simp only [List.all_cons, Bool.and_eq_true] at h ⊢
    cases ev <;> simp_all [pollEvB, notW]

/-- A write-free trace has an empty write list at every offset. -/
theorem writesAt_of_notW (o : Nat) (tr : List Ev) (h : tr.all notW = true) :
    writesAt o tr = [] := by
  induction tr with
  | nil => rfl
  | cons ev tr ih =>
    simp only [List.all_cons, Bool.and_eq_true] at h
    cases ev <;> simp_all [notW, writesAt]

/-- The amended read-modify-write discipline holds vacuously on a
write-free trace. -/
theorem rmwA_of_notW (off : Nat) (tr : List Ev) (h : tr.all notW = true) :
    ∀ l, rmwAmended off l tr = true := by
  induction tr with
  | nil => intro l; rfl
  | cons ev tr ih =>
    intro l
    simp only [List.all_cons, Bool.and_eq_true] at h
    cases ev <;> simp_all [notW, rmwAmended]

/-- Processing a write-free prefix only updates the last-read
accumulator. -/
theorem rmwA_append (off : Nat) (xs : List Ev) (hx : xs.all notW = true) :
    ∀ l ys, rmwAmended off l (xs ++ ys) = rmwAmended off (lastReadAcc off l xs) ys := by
  induction xs with
  | nil => intro l ys; rfl
  | cons ev xs ih =>
    intro l ys
    simp only [List.all_cons, Bool.and_eq_true] at hx
    cases ev <;> simp_all [notW, rmwAmended, lastReadAcc]

/-- The qualification phase performs no 32-bit config write. -/
theorem qualify_notW (e : Env) : ((qualify e).1.trace).all notW = true := by
  unfold qualify
  simp only [pciRead, pciRead8, pciRead16, pciWrite16, mapRangeEv, mmioRead32, St.init]
  split
  · simp [notW]
  · split
    · simp [notW]
    · split
      · simp [notW]
      · split
        · simp [notW]
        · simp [notW]

/-- The capability offset an accepted device carries is the one
extracted from `HCCPARAMS` bits [15:8]. -/
theorem qualify_eecp (e : Env) (s : St) (k : Nat) (h : qualify e = (s, some k)) :
    k = eecpOf e := by
  unfold qualify at h
  simp only [pciRead, pciRead8, pciRead16, pciWrite16, mapRangeEv, mmioRead32, St.init] at h
  split at h
  · simp at h
  · split at h
    · simp at h
    · split at h
      · simp at h
      · split at h
        · simp at h
        · simp only [Prod.mk.injEq, Option.some.injEq] at h
          rw [← h.2]
          rfl

/-- Whatever ownership case is taken, a terminating handoff block
writes 0 to `eecp + 4` exactly once. -/
theorem handoffBlock_smi (e : Env) (eecp fuel : Nat) (s s2 : St)
    (h : handoffBlock e eecp fuel s = some s2) :
    ∃ tl, s2.trace = s.trace ++ tl ∧ writesAt (eecp + 4) tl = [0] := by
  have hne : ¬ (eecp = eecp + 4) := by omega
  simp only [handoffBlock, pciRead, getTimeMs, bootTimeMark, pciWrite, smiDisable] at h
  by_cases hb : e.r32 s.n32 eecp % 2 ^ 32 &&& GRUB_XHCI_BIOS_OWNED ≠ 0
  · rw [if_pos hb] at h
    simp only [List.append_assoc, List.cons_append, List.nil_append] at h
    cases hpl : pollLoop e eecp ((e.clock s.nt % 2 ^ 64 + 1000) % 2 ^ 64) fuel
        ⟨s.n32 + 1 + 1, s.n16, s.n8, s.nm, s.nt + 1,
          s.trace ++ [Ev.confRead eecp (e.r32 s.n32 eecp % 2 ^ 32),
            Ev.bootTime,
            Ev.confWrite eecp (e.r32 s.n32 eecp % 2 ^ 32 ||| GRUB_XHCI_OS_OWNED),
            Ev.confRead eecp (e.r32 (s.n32 + 1) eecp % 2 ^ 32),
            Ev.getTime (e.clock s.nt % 2 ^ 64)]⟩ with
    | none => rw [hpl] at h; exact absurd h (by simp)
    | some s7 =>
      rw [hpl] at h
      dsimp only at h
      obtain ⟨ptl, h1, h2⟩ := pollLoop_evs e eecp _ fuel _ _ hpl
      have hptl : writesAt (eecp + 4) ptl = [] := writesAt_of_pollEvs _ _ _ h2
      by_cases hr : e.r32 s7.n32 eecp % 2 ^ 32 &&& GRUB_XHCI_BIOS_OWNED ≠ 0
      · rw [if_pos hr] at h
        injection h with h
        subst h
        refine ⟨[Ev.confRead eecp (e.r32 s.n32 eecp % 2 ^ 32),
            Ev.bootTime,
            Ev.confWrite eecp (e.r32 s.n32 eecp % 2 ^ 32 ||| GRUB_XHCI_OS_OWNED),
            Ev.confRead eecp (e.r32 (s.n32 + 1) eecp % 2 ^ 32),
            Ev.getTime (e.clock s.nt % 2 ^ 64)] ++ ptl ++
            [Ev.confRead eecp (e.r32 s7.n32 eecp % 2 ^ 32),
             Ev.confWrite eecp GRUB_XHCI_OS_OWNED,
             Ev.confRead eecp (e.r32 (s7.n32 + 1) eecp % 2 ^ 32),
             Ev.confWrite (eecp + 4) 0,
             Ev.confRead (eecp + 4) (e.r32 (s7.n32 + 1 + 1) (eecp + 4) % 2 ^ 32)], ?_, ?_⟩
        · rw [h1]; simp [List.append_assoc]
        · simp only [writesAt_append, hptl]
          simp [writesAt, hne]
      · rw [if_neg hr] at h
        injection h with h
        subst h
        refine ⟨[Ev.confRead eecp (e.r32 s.n32 eecp % 2 ^ 32),
            Ev.bootTime,
            Ev.confWrite eecp (e.r32 s.n32 eecp % 2 ^ 32 ||| GRUB_XHCI_OS_OWNED),
            Ev.confRead eecp (e.r32 (s.n32 + 1) eecp % 2 ^ 32),
            Ev.getTime (e.clock s.nt % 2 ^ 64)] ++ ptl ++
            [Ev.confRead eecp (e.r32 s7.n32 eecp % 2 ^ 32),
             Ev.confWrite (eecp + 4) 0,
             Ev.confRead (eecp + 4) (e.r32 (s7.n32 + 1) (eecp + 4) % 2 ^ 32)], ?_, ?_⟩
        · rw [h1]; simp [List.append_assoc]
        · simp only [writesAt_append, hptl]
          simp [writesAt, hne]
  · rw [if_neg hb] at h
    by_cases ho : e.r32 s.n32 eecp % 2 ^ 32 &&& GRUB_XHCI_OS_OWNED ≠ 0
    · rw [if_pos ho] at h
      injection h with h
      subst h
      refine ⟨[Ev.confRead eecp (e.r32 s.n32 eecp % 2 ^ 32),
          Ev.confWrite (eecp + 4) 0,
          Ev.confRead (eecp + 4) (e.r32 (s.n32 + 1) (eecp + 4) % 2 ^ 32)], ?_, ?_⟩
      · simp [List.append_assoc]
      · simp [writesAt, hne]
    · rw [if_neg ho] at h
      injection h with h
      subst h
      refine ⟨[Ev.confRead eecp (e.r32 s.n32 eecp % 2 ^ 32),
          Ev.confWrite eecp GRUB_XHCI_OS_OWNED,
          Ev.confRead eecp (e.r32 (s.n32 + 1) eecp % 2 ^ 32),
          Ev.confWrite (eecp + 4) 0,
          Ev.confRead (eecp + 4) (e.r32 (s.n32 + 1 + 1) (eecp + 4) % 2 ^ 32)], ?_, ?_⟩
      · simp [List.append_assoc]
      · simp [writesAt, hne]

/-- Every terminating handoff block satisfies the amended
read-modify-write discipline on its appended events (with the final
controller-initialization marker attached). -/
theorem handoffBlock_rmwA (e : Env) (eecp fuel : Nat) (s s2 : St)
    (h : handoffBlock e eecp fuel s = some s2) :
    ∃ tl, s2.trace = s.trace ++ tl ∧
      ∀ l, rmwAmended eecp l (tl ++ [Ev.initDevice]) = true := by
  have hne : ¬ (eecp + 4 = eecp) := by omega
  simp only [handoffBlock, pciRead, getTimeMs, bootTimeMark, pciWrite, smiDisable] at h
  by_cases hb : e.r32 s.n32 eecp % 2 ^ 32 &&& GRUB_XHCI_BIOS_OWNED ≠ 0
  · rw [if_pos hb] at h
    simp only [List.append_assoc, List.cons_append, List.nil_append] at h
    cases hpl : pollLoop e eecp ((e.clock s.nt % 2 ^ 64 + 1000) % 2 ^ 64) fuel
        ⟨s.n32 + 1 + 1, s.n16, s.n8, s.nm, s.nt + 1,
          s.trace ++ [Ev.confRead eecp (e.r32 s.n32 eecp % 2 ^ 32),
            Ev.bootTime,
            Ev.confWrite eecp (e.r32 s.n32 eecp % 2 ^ 32 ||| GRUB_XHCI_OS_OWNED),
            Ev.confRead eecp (e.r32 (s.n32 + 1) eecp % 2 ^ 32),
            Ev.getTime (e.clock s.nt % 2 ^ 64)]⟩ with
    | none => rw [hpl] at h; exact absurd h (by simp)
    | some s7 =>
      rw [hpl] at h
      dsimp only at h
      obtain ⟨ptl, h1, h2⟩ := pollLoop_evs e eecp _ fuel _ _ hpl
      have hw := notW_of_pollEvs eecp ptl h2
      by_cases hr : e.r32 s7.n32 eecp % 2 ^ 32 &&& GRUB_XHCI_BIOS_OWNED ≠ 0
      · rw [if_pos hr] at h
        injection h with h
        subst h
        refine ⟨[Ev.confRead eecp (e.r32 s.n32 eecp % 2 ^ 32),
            Ev.bootTime,
            Ev.confWrite eecp (e.r32 s.n32 eecp % 2 ^ 32 ||| GRUB_XHCI_OS_OWNED),
            Ev.confRead eecp (e.r32 (s.n32 + 1) eecp % 2 ^ 32),
            Ev.getTime (e.clock s.nt % 2 ^ 64)] ++ ptl ++
            [Ev.confRead eecp (e.r32 s7.n32 eecp % 2 ^ 32),
             Ev.confWrite eecp GRUB_XHCI_OS_OWNED,
             Ev.confRead eecp (e.r32 (s7.n32 + 1) eecp % 2 ^ 32),
             Ev.confWrite (eecp + 4) 0,
             Ev.confRead (eecp + 4) (e.r32 (s7.n32 + 1 + 1) (eecp + 4) % 2 ^ 32)], ?_, ?_⟩
        · rw [h1]; simp [List.append_assoc]
        · intro l
          simp only [List.append_assoc, List.cons_append, List.nil_append]
          simp [rmwAmended, amendedWriteOK, nextIsRead, hne]
          rw [rmwA_append eecp ptl hw]
          simp [rmwAmended, amendedWriteOK, nextIsRead, hne]
      · rw [if_neg hr] at h
        injection h with h
        subst h
        refine ⟨[Ev.confRead eecp (e.r32 s.n32 eecp % 2 ^ 32),
            Ev.bootTime,
            Ev.confWrite eecp (e.r32 s.n32 eecp % 2 ^ 32 ||| GRUB_XHCI_OS_OWNED),
            Ev.confRead eecp (e.r32 (s.n32 + 1) eecp % 2 ^ 32),
            Ev.getTime (e.clock s.nt % 2 ^ 64)] ++ ptl ++
            [Ev.confRead eecp (e.r32 s7.n32 eecp % 2 ^ 32),
             Ev.confWrite (eecp + 4) 0,
             Ev.confRead (eecp + 4) (e.r32 (s7.n32 + 1) (eecp + 4) % 2 ^ 32)], ?_, ?_⟩
        · rw [h1]; simp [List.append_assoc]
        · intro l
          simp only [List.append_assoc, List.cons_append, List.nil_append]
          simp [rmwAmended, amendedWriteOK, nextIsRead, hne]
          rw [rmwA_append eecp ptl hw]
          simp [rmwAmended, amendedWriteOK, nextIsRead, hne]
  · rw [if_neg hb] at h
    by_cases ho : e.r32 s.n32 eecp % 2 ^ 32 &&& GRUB_XHCI_OS_OWNED ≠ 0
    · rw [if_pos ho] at h
      injection h with h
      subst h
      refine ⟨[Ev.confRead eecp (e.r32 s.n32 eecp % 2 ^ 32),
          Ev.confWrite (eecp + 4) 0,
          Ev.confRead (eecp + 4) (e.r32 (s.n32 + 1) (eecp + 4) % 2 ^ 32)], ?_, ?_⟩
      · simp [List.append_assoc]
      · intro l
        simp [rmwAmended, amendedWriteOK, nextIsRead, hne]
    · rw [if_neg ho] at h
      injection h with h
      subst h
      refine ⟨[Ev.confRead eecp (e.r32 s.n32 eecp % 2 ^ 32),
          Ev.confWrite eecp GRUB_XHCI_OS_OWNED,
          Ev.confRead eecp (e.r32 (s.n32 + 1) eecp % 2 ^ 32),
          Ev.confWrite (eecp + 4) 0,
          Ev.confRead (eecp + 4) (e.r32 (s.n32 + 1 + 1) (eecp + 4) % 2 ^ 32)], ?_, ?_⟩
      · simp [List.append_assoc]
      · intro l
        simp [rmwAmended, amendedWriteOK, nextIsRead, hne]

/-! ## Claim C5 (clean case-A handoff) -/

/-- C5: if the firmware-owned bit is initially set but reads clear at
poll iteration `j + 1` (and at the re-check), while the clock stayed
within the 1000 ms budget, then the handoff performs no forced write:
the ownership register is written exactly once, with the originally
read value OR'd with the OS-owned bit — a value different from the
bare OS-owned bit — the SMI-disable register is zeroed once, and at
least two ownership-register reads follow the write. -/
theorem c5_clean_handoff (e : Env) (eecp fuel j : Nat) (s : St)
    (hu : e.r32 s.n32 eecp % 2 ^ 32 &&& GRUB_XHCI_BIOS_OWNED ≠ 0)
    (hpoll : ∀ i, i < j → e.r32 (s.n32 + 2 + i) eecp % 2 ^ 32 &&& GRUB_XHCI_BIOS_OWNED ≠ 0)
    (hclk : ∀ i, i < j → e.clock (s.nt + 1 + i) % 2 ^ 64 < e.clock s.nt % 2 ^ 64 + 1000)
    (hnw : e.clock s.nt % 2 ^ 64 + 1000 < 2 ^ 64)
    (hrel : e.r32 (s.n32 + 2 + j) eecp % 2 ^ 32 &&& GRUB_XHCI_BIOS_OWNED = 0)
    (hrel2 : e.r32 (s.n32 + 3 + j) eecp % 2 ^ 32 &&& GRUB_XHCI_BIOS_OWNED = 0)
    (hfuel : j < fuel) :
    handoffBlock e eecp fuel s =
      some ⟨s.n32 + 5 + j, s.n16, s.n8, s.nm, s.nt + 1 + j,
        s.trace ++ caseASuccessTail e eecp j s⟩ ∧
    writesAt eecp (caseASuccessTail e eecp j s) =
      [e.r32 s.n32 eecp % 2 ^ 32 ||| GRUB_XHCI_OS_OWNED] ∧
    e.r32 s.n32 eecp % 2 ^ 32 ||| GRUB_XHCI_OS_OWNED ≠ GRUB_XHCI_OS_OWNED ∧
    writesAt (eecp + 4) (caseASuccessTail e eecp j s) = [0] ∧
    2 ≤ (readsAt eecp (caseASuccessPost e eecp j s)).length := by
  have hne : eecp + 4 ≠ eecp := by omega
  refine ⟨?_, ?_, or_os_ne_os _ hu, ?_, ?_⟩
  · have hq := pollLoop_clear e eecp (e.clock s.nt % 2 ^ 64 + 1000) j fuel
      ⟨s.n32 + 1 + 1, s.n16, s.n8, s.nm, s.nt + 1,
        s.trace ++ [Ev.confRead eecp (e.r32 s.n32 eecp % 2 ^ 32),
          Ev.bootTime,
          Ev.confWrite eecp (e.r32 s.n32 eecp % 2 ^ 32 ||| GRUB_XHCI_OS_OWNED),
          Ev.confRead eecp (e.r32 (s.n32 + 1) eecp % 2 ^ 32),
          Ev.getTime (e.clock s.nt % 2 ^ 64)]⟩
      hfuel (fun i hi => hpoll i hi) (fun i hi => hclk i hi) hrel
    have hR : e.r32 (s.n32 + 1 + 1 + j + 1) eecp % 2 ^ 32 &&& GRUB_XHCI_BIOS_OWNED = 0 := by
      rw [show s.n32 + 1 + 1 + j + 1 = s.n32 + 3 + j from by omega]; exact hrel2
    simp only [handoffBlock, pciRead, getTimeMs, bootTimeMark, pciWrite, smiDisable]
    rw [if_pos hu, Nat.mod_eq_of_lt hnw]
    simp only [List.append_assoc, List.cons_append, List.nil_append]
    rw [hq]
    simp only [hR, ne_eq, not_true_eq_false, not_false_eq_true, if_false]
    simp only [caseASuccessTail, caseASuccessPost, List.append_assoc, List.cons_append,
      List.nil_append, Option.some.injEq, St.mk.injEq]
    refine ⟨by omega, trivial, trivial, trivial, trivial, ?_⟩
    rw [show s.n32 + 1 + 1 = s.n32 + 2 from rfl,
        show s.n32 + 2 + j + 1 = s.n32 + 3 + j from by omega,
        show s.n32 + 3 + j + 1 = s.n32 + 4 + j from by omega]
  · simp only [caseASuccessTail, caseASuccessPost, writesAt_append, writesAt_pollPairs]
    simp [writesAt, hne]
  · simp only [caseASuccessTail, caseASuccessPost, writesAt_append, writesAt_pollPairs]
    simp [writesAt, hne]
  · have hlen := readsAt_pollPairs e eecp j (s.n32 + 2) (s.nt + 1)
    simp only [caseASuccessPost, readsAt_append, List.length_append, hlen]
    simp [readsAt]

/-- C5 witness: firmware releases after one poll iteration. -/
theorem c5_clean_handoff_witness :
    handoffBlock envC5 0x40 2 St.init =
      some ⟨St.init.n32 + 5 + 1, St.init.n16, St.init.n8, St.init.nm, St.init.nt + 1 + 1,
        St.init.trace ++ caseASuccessTail envC5 0x40 1 St.init⟩ ∧
    writesAt 0x40 (caseASuccessTail envC5 0x40 1 St.init) =
      [envC5.r32 St.init.n32 0x40 % 2 ^ 32 ||| GRUB_XHCI_OS_OWNED] ∧
    envC5.r32 St.init.n32 0x40 % 2 ^ 32 ||| GRUB_XHCI_OS_OWNED ≠ GRUB_XHCI_OS_OWNED ∧
    writesAt (0x40 + 4) (caseASuccessTail envC5 0x40 1 St.init) = [0] ∧
    2 ≤ (readsAt 0x40 (caseASuccessPost envC5 0x40 1 St.init)).length :=
  c5_clean_handoff envC5 0x40 2 1 St.init (by decide)
    (by intro i hi
        have h0 : i = 0 := by omega
        subst h0
        decide)
    (by intro i hi
        have h0 : i = 0 := by omega
        subst h0
        decide)
    (by decide) (by decide) (by decide) (by decide)

/-! ## Claim C2 (case-A timeout and forced fallback) -/

/-- C2: if every read of the ownership register shows the
firmware-owned bit set (the firmware never releases), then any
terminating run of the handoff block consists of the initial read, the
read-modify-write, the confirmation read, the budget computation, a
poll phase whose clock observations are all below the 1000 ms budget
except the last, which is at or past it (the loop exits only then),
one forced write of exactly the OS-owned bit — issued only after the
re-check read still showed the firmware bit — exactly one confirmation
read of it, and the SMI disable.  In particular the ownership register
is written exactly twice, and only the forced write carries the bare
OS-owned value. -/
theorem c2_timeout_forced_write (e : Env) (eecp fuel : Nat) (s s6 : St)
    (hnc : ∀ n, e.r32 n eecp % 2 ^ 32 &&& GRUB_XHCI_BIOS_OWNED ≠ 0)
    (hnw : e.clock s.nt % 2 ^ 64 + 1000 < 2 ^ 64)
    (hrun : handoffBlock e eecp fuel s = some s6) :
    ∃ ptl tlast vR vC vS,
      s6.trace = s.trace ++
        ([Ev.confRead eecp (e.r32 s.n32 eecp % 2 ^ 32),
          Ev.bootTime,
          Ev.confWrite eecp (e.r32 s.n32 eecp % 2 ^ 32 ||| GRUB_XHCI_OS_OWNED),
          Ev.confRead eecp (e.r32 (s.n32 + 1) eecp % 2 ^ 32),
          Ev.getTime (e.clock s.nt % 2 ^ 64)]
         ++ ptl
         ++ [Ev.confRead eecp vR,
             Ev.confWrite eecp GRUB_XHCI_OS_OWNED,
             Ev.confRead eecp vC,
             Ev.confWrite (eecp + 4) 0,
             Ev.confRead (eecp + 4) vS]) ∧
      ptl.all (pollEvB eecp) = true ∧
      vR &&& GRUB_XHCI_BIOS_OWNED ≠ 0 ∧
      timeVals ptl ≠ [] ∧
      (timeVals ptl).getLast? = some tlast ∧
      e.clock s.nt % 2 ^ 64 + 1000 ≤ tlast ∧
      (∀ x ∈ (timeVals ptl).dropLast, x < e.clock s.nt % 2 ^ 64 + 1000) ∧
      writesAt eecp s6.trace =
        writesAt eecp s.trace ++
          [e.r32 s.n32 eecp % 2 ^ 32 ||| GRUB_XHCI_OS_OWNED, GRUB_XHCI_OS_OWNED] ∧
      e.r32 s.n32 eecp % 2 ^ 32 ||| GRUB_XHCI_OS_OWNED ≠ GRUB_XHCI_OS_OWNED := by
  have hne : eecp + 4 ≠ eecp := by omega
  simp only [handoffBlock, pciRead, getTimeMs, bootTimeMark, pciWrite, smiDisable] at hrun
  rw [if_pos (hnc s.n32), Nat.mod_eq_of_lt hnw] at hrun
  simp only [List.append_assoc, List.cons_append, List.nil_append] at hrun
  cases hpl : pollLoop e eecp (e.clock s.nt % 2 ^ 64 + 1000) fuel
      ⟨s.n32 + 1 + 1, s.n16, s.n8, s.nm, s.nt + 1,
        s.trace ++ [Ev.confRead eecp (e.r32 s.n32 eecp % 2 ^ 32),
          Ev.bootTime,
          Ev.confWrite eecp (e.r32 s.n32 eecp % 2 ^ 32 ||| GRUB_XHCI_OS_OWNED),
          Ev.confRead eecp (e.r32 (s.n32 + 1) eecp % 2 ^ 32),
          Ev.getTime (e.clock s.nt % 2 ^ 64)]⟩ with
  | none =>
    rw [hpl] at hrun
    exact absurd hrun (by simp)
  | some s7 =>
    rw [hpl] at hrun
    dsimp only at hrun
    rw [if_pos (hnc s7.n32)] at hrun
    obtain ⟨ptl, tlast, h1, h2, h3, h4, h5, h6⟩ :=
      pollLoop_stuck e eecp (e.clock s.nt % 2 ^ 64 + 1000) hnc fuel _ _ hpl
    injection hrun with hrun
    refine ⟨ptl, tlast, e.r32 s7.n32 eecp % 2 ^ 32, e.r32 (s7.n32 + 1) eecp % 2 ^ 32,
      e.r32 (s7.n32 + 1 + 1) (eecp + 4) % 2 ^ 32, ?_, h2, hnc s7.n32, h3, h4, h5, h6, ?_,
      or_os_ne_os _ (hnc s.n32)⟩
    · rw [← hrun]
      simp only [h1]
      simp [List.append_assoc]
    · rw [← hrun]
      simp only [h1]
      simp only [writesAt_append, List.append_assoc]
      rw [writesAt_of_pollEvs eecp eecp ptl h2]
      simp [writesAt, hne]

/-- C2 witness: the firmware never releases; the second clock reading
(5000 ms) exhausts the 1000 ms budget and the forced write follows. -/
theorem c2_timeout_forced_write_witness :
    ∃ ptl tlast vR vC vS,
      stC2.trace = St.init.trace ++
        ([Ev.confRead 0x40 (envC2.r32 St.init.n32 0x40 % 2 ^ 32),
          Ev.bootTime,
          Ev.confWrite 0x40 (envC2.r32 St.init.n32 0x40 % 2 ^ 32 ||| GRUB_XHCI_OS_OWNED),
          Ev.confRead 0x40 (envC2.r32 (St.init.n32 + 1) 0x40 % 2 ^ 32),
          Ev.getTime (envC2.clock St.init.nt % 2 ^ 64)]
         ++ ptl
         ++ [Ev.confRead 0x40 vR,
             Ev.confWrite 0x40 GRUB_XHCI_OS_OWNED,
             Ev.confRead 0x40 vC,
             Ev.confWrite (0x40 + 4) 0,
             Ev.confRead (0x40 + 4) vS]) ∧
      ptl.all (pollEvB 0x40) = true ∧
      vR &&& GRUB_XHCI_BIOS_OWNED ≠ 0 ∧
      timeVals ptl ≠ [] ∧
      (timeVals ptl).getLast? = some tlast ∧
      envC2.clock St.init.nt % 2 ^ 64 + 1000 ≤ tlast ∧
      (∀ x ∈ (timeVals ptl).dropLast, x < envC2.clock St.init.nt % 2 ^ 64 + 1000) ∧
      writesAt 0x40 stC2.trace =
        writesAt 0x40 St.init.trace ++
          [envC2.r32 St.init.n32 0x40 % 2 ^ 32 ||| GRUB_XHCI_OS_OWNED, GRUB_XHCI_OS_OWNED] ∧
      envC2.r32 St.init.n32 0x40 % 2 ^ 32 ||| GRUB_XHCI_OS_OWNED ≠ GRUB_XHCI_OS_OWNED :=
  c2_timeout_forced_write envC2 0x40 2 St.init stC2
    (fun n => by
      show (0x10000 : Nat) % 2 ^ 32 &&& GRUB_XHCI_BIOS_OWNED ≠ 0
      decide)
    (by decide) (by decide)

/-! ## Claim C3 (SMI-disable write exactly once / not at all) -/

/-- C3: for an accepted device (one `qualify` maps and hands on), a
terminating run writes 0 to the register at capability offset + 4
exactly once when the extracted capability offset is at least 0x40 —
whichever ownership case was taken — and never writes it (the whole
handoff block being skipped) when the offset is below 0x40. -/
theorem c3_smi_disable_once (e : Env) (fuel : Nat) (s out1 : St) (r eecp : Nat)
    (hpci : e.pciid % 2 ^ 32 ≠ GRUB_CS5536_PCIID)
    (hq : qualify e = (s, some eecp))
    (hrun : grub_xhci_pci_iter e fuel = some (out1, r)) :
    (0x40 ≤ eecp → writesAt (eecp + 4) out1.trace = [0]) ∧
    (eecp < 0x40 → writesAt (eecp + 4) out1.trace = []) := by
  have hq0 : writesAt (eecp + 4) s.trace = [] := by
    have h := writesAt_of_notW (eecp + 4) (qualify e).1.trace (qualify_notW e)
    rw [hq] at h
    exact h
  unfold grub_xhci_pci_iter at hrun
  rw [if_neg hpci, hq] at hrun
  dsimp only at hrun
  by_cases hle : 0x40 ≤ eecp
  · rw [if_pos ⟨hpci, hle⟩] at hrun
    cases hhb : handoffBlock e eecp fuel s with
    | none => rw [hhb] at hrun; exact absurd hrun (by simp)
    | some s2 =>
      rw [hhb] at hrun
      dsimp only [initDev] at hrun
      injection hrun with hrun
      injection hrun with hrun1 hrun2
      obtain ⟨tl, h1, h2⟩ := handoffBlock_smi e eecp fuel s s2 hhb
      constructor
      · intro _
        rw [← hrun1]
        dsimp only
        rw [h1, List.append_assoc, writesAt_append, hq0, writesAt_append, h2]
        simp [writesAt]
      · intro hlt
        omega
  · rw [if_neg (fun hand => hle hand.2)] at hrun
    dsimp only [initDev] at hrun
    injection hrun with hrun
    injection hrun with hrun1 hrun2
    constructor
    · intro hge
      omega
    · intro _
      rw [← hrun1]
      dsimp only
      rw [writesAt_append, hq0]
      simp [writesAt]

/-- C3 witness: accepted device with capability offset 0x40, case B. -/
theorem c3_smi_disable_once_witness :
    (0x40 ≤ 0x40 → writesAt (0x40 + 4) stC3out.trace = [0]) ∧
    (0x40 < 0x40 → writesAt (0x40 + 4) stC3out.trace = []) :=
  c3_smi_disable_once envC3 1 stC3q stC3out 0 0x40 (by decide) (by decide) (by decide)

/-! ## Claim C1 (ownership-register write discipline) -/

/-- C1 counterexample: on a device whose ownership register reads 1
(neither owner bit set, a non-owner bit set), the unowned case writes
the constant OS-owned bit, which changes the register outside the two
ownership bits; so the strict read-modify-write discipline claimed for
all three ownership cases fails on this execution. -/
theorem c1_rmw_strict_cex :
    (grub_xhci_pci_iter envC1 1).isSome = true ∧
    rmwStrict (eecpOf envC1) none (traceOf (grub_xhci_pci_iter envC1 1)) = false :=
  ⟨by decide, by decide⟩

/-- C1 (amended): in every terminating run, every write to the
ownership register either ORs the OS-owned bit into the most recently
read value or writes the bare OS-owned bit (the forced-fallback and
unowned paths), and every such write is immediately followed by a read
of the same register. -/
theorem c1_rmw_amended (e : Env) (fuel : Nat)
    (h : (grub_xhci_pci_iter e fuel).isSome = true) :
    rmwAmended (eecpOf e) none (traceOf (grub_xhci_pci_iter e fuel)) = true := by
  unfold grub_xhci_pci_iter at h ⊢
  by_cases hpci : e.pciid % 2 ^ 32 = GRUB_CS5536_PCIID
  · rw [if_pos hpci]
    rfl
  · rw [if_neg hpci] at h ⊢
    cases hq : qualify e with
    | mk s o =>
      rw [hq] at h
      have hsw : (s.trace).all notW = true := by
        have h' := qualify_notW e
        rw [hq] at h'
        exact h'
      cases o with
      | none =>
        dsimp only [traceOf]
        exact rmwA_of_notW _ _ hsw none
      | some eecp =>
        have heq : eecp = eecpOf e := qualify_eecp e s eecp hq
        rw [← heq]
        dsimp only at h ⊢
        by_cases hcond : e.pciid % 2 ^ 32 ≠ GRUB_CS5536_PCIID ∧ 0x40 ≤ eecp
        · rw [if_pos hcond] at h ⊢
          cases hhb : handoffBlock e eecp fuel s with
          | none => rw [hhb] at h; simp at h
          | some s2 =>
            dsimp only [traceOf, initDev]
            obtain ⟨tl, h1, h2⟩ := handoffBlock_rmwA e eecp fuel s s2 hhb
            rw [h1, List.append_assoc, rmwA_append eecp s.trace hsw]
            exact h2 _
        · rw [if_neg hcond]
          dsimp only [traceOf, initDev]
          apply rmwA_of_notW
          rw [List.all_append, hsw]
          rfl

/-- C1 witness (amended): the counterexample device satisfies the
amended discipline. -/
theorem c1_rmw_amended_witness :
    rmwAmended (eecpOf envC1) none (traceOf (grub_xhci_pci_iter envC1 1)) = true ∧
    (grub_xhci_pci_iter envC1 1).isSome = true :=
  ⟨c1_rmw_amended envC1 1 (by decide), by decide⟩

end XhciPci
